import Mathlib

/-!
Verification of the canvas-interaction core of PhotoObjectPlacer, a
browser-based image-editing tool.  The embedding below translates the
pure logic of the TypeScript source: the pan/zoom affine transform and
its inverse, cursor-anchored zooming with a clamped scale, the bounded
undo history, mask binarization for API submission, the guards and
error handling of the placement / erasure handlers, the comparison
slider clamp, and the fit-to-screen layout.  Numeric values are modelled
with exact rational arithmetic.
-/

namespace PhotoPlacer

/-- Screen- or image-space point with rational coordinates. -/
structure Point where
  x : ℚ
  y : ℚ
deriving DecidableEq, Repr

/-- Pan/zoom transform state, mirroring the Transform interface of
types.ts: translation (x, y) and uniform scale factor k. -/
structure Transform where
  x : ℚ
  y : ℚ
  k : ℚ
deriving DecidableEq, Repr

/-- Forward affine transform applied by draw: the canvas context is
translated by (x, y) and scaled by k, so an image-space point p lands at
screen position k * p + (x, y). -/
def applyTransform (t : Transform) (p : Point) : Point :=
  ⟨t.k * p.x + t.x, t.k * p.y + t.y⟩

/-- getImageCoords from the App component: converts a screen-space point
(the mouse position relative to the container) to image space by
inverting the transform, ((sx - x) / k, (sy - y) / k). -/
def getImageCoords (t : Transform) (s : Point) : Point :=
  ⟨(s.x - t.x) / t.k, (s.y - t.y) / t.k⟩

end PhotoPlacer

namespace PhotoPlacer

/-- C1: the pan/zoom coordinate transform is invertible.  For every
transform with nonzero scale, getImageCoords undoes the forward affine
transform used by draw, and the forward transform undoes
getImageCoords. -/
theorem transform_invertible (t : Transform) (hk : t.k ≠ 0) (p s : Point) :
    getImageCoords t (applyTransform t p) = p ∧
    applyTransform t (getImageCoords t s) = s := by
  constructor
  · show Point.mk ((t.k * p.x + t.x - t.x) / t.k) ((t.k * p.y + t.y - t.y) / t.k) = p
    have hx : (t.k * p.x + t.x - t.x) / t.k = p.x := by
      field_simp
    have hy : (t.k * p.y + t.y - t.y) / t.k = p.y := by
      field_simp
    rw [hx, hy]
  · show Point.mk (t.k * ((s.x - t.x) / t.k) + t.x) (t.k * ((s.y - t.y) / t.k) + t.y) = s
    have hx : t.k * ((s.x - t.x) / t.k) + t.x = s.x := by
      field_simp
    have hy : t.k * ((s.y - t.y) / t.k) + t.y = s.y := by
      field_simp
    rw [hx, hy]

/-- Witness for C1 at the concrete transform (3, -2, 5/2) and points
(7, 11) and (1/3, 4). -/
theorem transform_invertible_witness :
    getImageCoords ⟨3, -2, 5/2⟩ (applyTransform ⟨3, -2, 5/2⟩ ⟨7, 11⟩) = ⟨7, 11⟩ ∧
    applyTransform ⟨3, -2, 5/2⟩ (getImageCoords ⟨3, -2, 5/2⟩ ⟨1/3, 4⟩) = ⟨1/3, 4⟩ :=
  transform_invertible ⟨3, -2, 5/2⟩ (by norm_num) ⟨7, 11⟩ ⟨1/3, 4⟩

/-- Zoom step of handleWheel: 0.1. -/
def zoomIntensity : ℚ := 1/10

/-- Per-event zoom factor: scrolling down (deltaY > 0) shrinks by
1 - 0.1, otherwise grows by 1 + 0.1. -/
def wheelDelta (deltaY : ℚ) : ℚ :=
  if 0 < deltaY then 1 - zoomIntensity else 1 + zoomIntensity

/-- handleWheel from the App component: clamps the new scale to
[0.1, 5] and repositions the translation so the point under the mouse
is preserved, x := mouseX - (mouseX - prev.x) * (newK / prev.k). -/
def handleWheel (mouse : Point) (deltaY : ℚ) (prev : Transform) : Transform :=
  let delta := wheelDelta deltaY
  let newK := max (1/10) (min (prev.k * delta) 5)
  let kRatio := newK / prev.k
  ⟨mouse.x - (mouse.x - prev.x) * kRatio,
   mouse.y - (mouse.y - prev.y) * kRatio,
   newK⟩

theorem wheelDelta_pos (deltaY : ℚ) : 0 < wheelDelta deltaY := by
  unfold wheelDelta zoomIntensity
  split <;> norm_num

theorem handleWheel_k_mem (mouse : Point) (deltaY : ℚ) (prev : Transform) :
    1/10 ≤ (handleWheel mouse deltaY prev).k ∧ (handleWheel mouse deltaY prev).k ≤ 5 := by
  unfold handleWheel
  refine ⟨le_max_left _ _, max_le (by norm_num) (min_le_right _ _)⟩

/-- C5: zoom is anchored at the cursor.  If the new scale
prev.k * delta is not clipped by the clamp (it already lies within
[0.1, 5]), then the image-space coordinates of the mouse point are
unchanged by handleWheel. -/
theorem handleWheel_anchors_cursor (mouse : Point) (deltaY : ℚ) (prev : Transform)
    (hlo : 1/10 ≤ prev.k * wheelDelta deltaY) (hhi : prev.k * wheelDelta deltaY ≤ 5) :
    getImageCoords (handleWheel mouse deltaY prev) mouse = getImageCoords prev mouse := by
  have hd : 0 < wheelDelta deltaY := wheelDelta_pos deltaY
  have hk : 0 < prev.k := by
    by_contra hle
    push_neg at hle
    have : prev.k * wheelDelta deltaY ≤ 0 := mul_nonpos_of_nonpos_of_nonneg hle hd.le
    linarith
  have hclamp : max (1/10 : ℚ) (min (prev.k * wheelDelta deltaY) 5)
      = prev.k * wheelDelta deltaY := by
    rw [min_eq_left hhi, max_eq_right hlo]
  unfold handleWheel getImageCoords
  simp only [hclamp]
  have hkne : prev.k ≠ 0 := ne_of_gt hk
  have hdne : wheelDelta deltaY ≠ 0 := ne_of_gt hd
  rw [Point.mk.injEq]
  constructor
  · field_simp
    ring
  · field_simp
    ring

/-- Witness for C5: transform (4, 6, 2) with a zoom-out event
(deltaY = 1, delta = 9/10, new scale 9/5 ∈ [0.1, 5]) at mouse point
(100, 60). -/
theorem handleWheel_anchors_cursor_witness :
    getImageCoords (handleWheel ⟨100, 60⟩ 1 ⟨4, 6, 2⟩) ⟨100, 60⟩ =
      getImageCoords ⟨4, 6, 2⟩ ⟨100, 60⟩ :=
  handleWheel_anchors_cursor ⟨100, 60⟩ 1 ⟨4, 6, 2⟩
    (by unfold wheelDelta zoomIntensity; norm_num)
    (by unfold wheelDelta zoomIntensity; norm_num)

/-- C6: the zoom scale stays within [0.1, 5].  Starting from any
transform with positive scale, one handleWheel event puts the scale in
[0.1, 5], and every subsequent sequence of wheel events keeps it
there. -/
theorem handleWheel_k_bounded (mouse : Point) (deltaY : ℚ) (prev : Transform)
    (hk : 0 < prev.k) :
    (1/10 ≤ (handleWheel mouse deltaY prev).k ∧ (handleWheel mouse deltaY prev).k ≤ 5) ∧
    ∀ evs : List (Point × ℚ),
      1/10 ≤ (evs.foldl (fun t e => handleWheel e.1 e.2 t) (handleWheel mouse deltaY prev)).k ∧
      (evs.foldl (fun t e => handleWheel e.1 e.2 t) (handleWheel mouse deltaY prev)).k ≤ 5 := by
  refine ⟨handleWheel_k_mem mouse deltaY prev, ?_⟩
  intro evs
  induction evs generalizing mouse deltaY prev with
  | nil => exact handleWheel_k_mem mouse deltaY prev
  | cons e rest ih =>
    have hpos : 0 < (handleWheel mouse deltaY prev).k :=
      lt_of_lt_of_le (by norm_num) (handleWheel_k_mem mouse deltaY prev).1
    simpa using ih e.1 e.2 (handleWheel mouse deltaY prev) hpos

/-- Witness for C6: a zoom-in event at (0, 0) on the identity transform
followed by two further events keeps the scale within bounds. -/
theorem handleWheel_k_bounded_witness :
    0 < (Transform.mk 0 0 1).k ∧
    ((1/10 ≤ (handleWheel ⟨0, 0⟩ (-1) ⟨0, 0, 1⟩).k ∧
      (handleWheel ⟨0, 0⟩ (-1) ⟨0, 0, 1⟩).k ≤ 5) ∧
     ∀ evs : List (Point × ℚ),
      1/10 ≤ (evs.foldl (fun t e => handleWheel e.1 e.2 t) (handleWheel ⟨0, 0⟩ (-1) ⟨0, 0, 1⟩)).k ∧
      (evs.foldl (fun t e => handleWheel e.1 e.2 t) (handleWheel ⟨0, 0⟩ (-1) ⟨0, 0, 1⟩)).k ≤ 5) :=
  ⟨by norm_num, handleWheel_k_bounded ⟨0, 0⟩ (-1) ⟨0, 0, 1⟩ (by norm_num)⟩

/-- One RGBA pixel of an ImageData buffer: four byte channels. -/
structure Pixel where
  r : ℕ
  g : ℕ
  b : ℕ
  a : ℕ
deriving DecidableEq, Repr

/-- Snapshot of the mask canvas pixels (an ImageData value), as the list
of its RGBA pixels. -/
abbrev Mask := List Pixel

/-- saveHistory from the App component: keeps at most the last 10 prior
entries (history.slice(-10)) and appends the freshly captured mask
ImageData. -/
def saveHistory (prev : List Mask) (data : Mask) : List Mask :=
  prev.drop (prev.length - 10) ++ [data]

/-- C2: the undo history is bounded.  saveHistory retains at most the 10
most recent prior entries — the retained prefix of the result is a
suffix of the prior history — followed by the newly captured mask, so
the history never holds more than 11 entries. -/
theorem saveHistory_bounded (prev : List Mask) (data : Mask) :
    (saveHistory prev data).length ≤ 11 ∧
    (saveHistory prev data).dropLast.length ≤ 10 ∧
    (saveHistory prev data).dropLast <:+ prev ∧
    (saveHistory prev data).getLast? = some data := by
  unfold saveHistory
  rw [List.dropLast_concat]
  refine ⟨?_, ?_, List.drop_suffix _ _, List.getLast?_concat _⟩
  · simp only [List.length_append, List.length_drop, List.length_singleton]
    omega
  · simp only [List.length_drop]
    omega

/-- Mutable canvas-side state touched by undo: the history list and the
current mask pixels. -/
structure CanvasState where
  history : List Mask
  mask : Mask
deriving DecidableEq, Repr

/-- handleUndo from the App component: returns unchanged when the
history holds at most one entry; otherwise pops the most recent entry,
and if the now-last entry exists restores the mask pixels from it
(putImageData). -/
def handleUndo (s : CanvasState) : CanvasState :=
  if s.history.length ≤ 1 then s
  else
    let newHistory := s.history.dropLast
    match newHistory.getLast? with
    | some previousState => ⟨newHistory, previousState⟩
    | none => ⟨newHistory, s.mask⟩

theorem dropLast_head_eq (l : List Mask) (h : 1 < l.length) :
    l.dropLast.head? = l.head? := by
  match l with
  | [] => simp at h
  | [a] => simp at h
  | a :: b :: rest => rfl

/-- C3: undo semantics.  With at most one history entry handleUndo
changes nothing; otherwise it removes exactly the most recent entry
(the new history is the old one without its last element and is still
nonempty, with the same first entry, so the initial clear state
survives) and restores the mask to the entry that is now last. -/
theorem handleUndo_spec (s : CanvasState) :
    (s.history.length ≤ 1 → handleUndo s = s) ∧
    (1 < s.history.length →
      (handleUndo s).history = s.history.dropLast ∧
      (handleUndo s).history.length = s.history.length - 1 ∧
      1 ≤ (handleUndo s).history.length ∧
      (handleUndo s).history.head? = s.history.head? ∧
      s.history.dropLast.getLast? = some (handleUndo s).mask) := by
  constructor
  · intro h
    unfold handleUndo
    rw [if_pos h]
  · intro h
    have hnotle : ¬ s.history.length ≤ 1 := not_le.mpr h
    have hlen : s.history.dropLast.length = s.history.length - 1 :=
      s.history.length_dropLast
    have hne : s.history.dropLast ≠ [] := by
      intro hnil
      rw [hnil] at hlen
      simp at hlen
      omega
    obtain ⟨p, hp⟩ := Option.isSome_iff_exists.mp (List.getLast?_isSome.mpr hne)
    have hresult : handleUndo s = ⟨s.history.dropLast, p⟩ := by
      unfold handleUndo
      rw [if_neg hnotle]
      simp only [hp]
    rw [hresult]
    refine ⟨rfl, ?_, ?_, dropLast_head_eq s.history h, hp⟩
    · exact hlen
    · rw [hlen]; omega

/-- Witness for C3 at a concrete two-entry history: the clear state and
one painted state, with the painted state current. -/
theorem handleUndo_spec_witness :
    ((CanvasState.mk [[⟨0,0,0,0⟩], [⟨255,0,0,255⟩]] [⟨255,0,0,255⟩]).history.length ≤ 1 →
      handleUndo ⟨[[⟨0,0,0,0⟩], [⟨255,0,0,255⟩]], [⟨255,0,0,255⟩]⟩ =
        ⟨[[⟨0,0,0,0⟩], [⟨255,0,0,255⟩]], [⟨255,0,0,255⟩]⟩) ∧
    (1 < (CanvasState.mk [[⟨0,0,0,0⟩], [⟨255,0,0,255⟩]] [⟨255,0,0,255⟩]).history.length →
      (handleUndo ⟨[[⟨0,0,0,0⟩], [⟨255,0,0,255⟩]], [⟨255,0,0,255⟩]⟩).history =
        [[⟨0,0,0,0⟩], [⟨255,0,0,255⟩]].dropLast ∧
      (handleUndo ⟨[[⟨0,0,0,0⟩], [⟨255,0,0,255⟩]], [⟨255,0,0,255⟩]⟩).history.length =
        ([[⟨0,0,0,0⟩], [⟨255,0,0,255⟩]] : List Mask).length - 1 ∧
      1 ≤ (handleUndo ⟨[[⟨0,0,0,0⟩], [⟨255,0,0,255⟩]], [⟨255,0,0,255⟩]⟩).history.length ∧
      (handleUndo ⟨[[⟨0,0,0,0⟩], [⟨255,0,0,255⟩]], [⟨255,0,0,255⟩]⟩).history.head? =
        ([[⟨0,0,0,0⟩], [⟨255,0,0,255⟩]] : List Mask).head? ∧
      ([[⟨0,0,0,0⟩], [⟨255,0,0,255⟩]] : List Mask).dropLast.getLast? =
        some (handleUndo ⟨[[⟨0,0,0,0⟩], [⟨255,0,0,255⟩]], [⟨255,0,0,255⟩]⟩).mask) :=
  handleUndo_spec ⟨[[⟨0,0,0,0⟩], [⟨255,0,0,255⟩]], [⟨255,0,0,255⟩]⟩

/-- Per-pixel step of the loop in getMaskDataUrl: a pixel with any
visible alpha becomes solid white, any other pixel becomes solid black,
both fully opaque. -/
def binarizePixel (p : Pixel) : Pixel :=
  if 0 < p.a then ⟨255, 255, 255, 255⟩ else ⟨0, 0, 0, 255⟩

/-- Pixel content of the image produced by getMaskDataUrl: the mask
canvas is copied and every RGBA pixel of the copy is rewritten by the
binarization loop. -/
def getMaskDataUrl (mask : Mask) : Mask :=
  mask.map binarizePixel

/-- C4: the submitted mask is strictly binary.  Every pixel of the image
produced by getMaskDataUrl is fully opaque, is pure white exactly when
the source pixel has positive alpha, and is pure black otherwise; no
intermediate values survive. -/
theorem getMaskDataUrl_binary (mask : Mask) (i : ℕ) (h : i < mask.length) :
    ∃ hm : i < (getMaskDataUrl mask).length,
      ((getMaskDataUrl mask).get ⟨i, hm⟩).a = 255 ∧
      ((getMaskDataUrl mask).get ⟨i, hm⟩ = ⟨255, 255, 255, 255⟩ ↔ 0 < (mask.get ⟨i, h⟩).a) ∧
      ((getMaskDataUrl mask).get ⟨i, hm⟩ = ⟨0, 0, 0, 255⟩ ↔ (mask.get ⟨i, h⟩).a = 0) := by
  have hm : i < (getMaskDataUrl mask).length := by
    unfold getMaskDataUrl
    rw [List.length_map]
    exact h
  refine ⟨hm, ?_⟩
  have hget : (getMaskDataUrl mask).get ⟨i, hm⟩ = binarizePixel (mask.get ⟨i, h⟩) := by
    unfold getMaskDataUrl
    simp [List.getElem_map]
  rw [hget]
  unfold binarizePixel
  by_cases ha : 0 < (mask.get ⟨i, h⟩).a
  · rw [if_pos ha]
    refine ⟨rfl, ⟨fun _ => ha, fun _ => rfl⟩, ?_, ?_⟩
    · intro heq
      exact absurd (congrArg Pixel.r heq) (by norm_num)
    · intro heq
      omega
  · rw [if_neg ha]
    refine ⟨rfl, ⟨?_, fun hpos => absurd hpos ha⟩, fun _ => by omega, fun _ => rfl⟩
    intro heq
    exact absurd (congrArg Pixel.r heq) (by norm_num)

/-- Witness for C4 on a two-pixel mask: an anti-aliased red pixel with
alpha 5 and a fully transparent pixel, inspected at index 0. -/
theorem getMaskDataUrl_binary_witness :
    0 < ([⟨128, 3, 7, 5⟩, ⟨0, 0, 0, 0⟩] : Mask).length ∧
    ∃ hm : 0 < (getMaskDataUrl [⟨128, 3, 7, 5⟩, ⟨0, 0, 0, 0⟩]).length,
      ((getMaskDataUrl [⟨128, 3, 7, 5⟩, ⟨0, 0, 0, 0⟩]).get ⟨0, hm⟩).a = 255 ∧
      ((getMaskDataUrl [⟨128, 3, 7, 5⟩, ⟨0, 0, 0, 0⟩]).get ⟨0, hm⟩ = ⟨255, 255, 255, 255⟩ ↔
        0 < (([⟨128, 3, 7, 5⟩, ⟨0, 0, 0, 0⟩] : Mask).get ⟨0, by norm_num⟩).a) ∧
      ((getMaskDataUrl [⟨128, 3, 7, 5⟩, ⟨0, 0, 0, 0⟩]).get ⟨0, hm⟩ = ⟨0, 0, 0, 255⟩ ↔
        (([⟨128, 3, 7, 5⟩, ⟨0, 0, 0, 0⟩] : Mask).get ⟨0, by norm_num⟩).a = 0) :=
  ⟨by norm_num, getMaskDataUrl_binary [⟨128, 3, 7, 5⟩, ⟨0, 0, 0, 0⟩] 0 (by norm_num)⟩

/-- Opaque handle standing for a base64 data URL string; the handlers
only pass these around, so only identity matters. -/
abbrev DataUrl := ℕ

/-- Application phase, mirroring the AppState enum of types.ts. -/
inductive AppState
  | IDLE
  | PROCESSING
  | COMPARING
deriving DecidableEq, Repr

/-- App-level state the AI handlers read and write: the phase, the base
and processed images, the selected object source and the off-screen mask
canvas. -/
structure AppModel where
  appState : AppState
  baseImage : Option DataUrl
  processedImage : Option DataUrl
  objectSource : Option DataUrl
  maskCanvas : Option Mask
deriving DecidableEq, Repr

/-- Outcome of one handler invocation: the final app state, whether the
remote API was invoked, and whether an alert was shown. -/
structure HandlerResult where
  state : AppModel
  calledApi : Bool
  alerted : Bool
deriving DecidableEq, Repr

/-- handlePlaceObject from the App component.  The guard alerts and
returns with nothing changed unless base image, object source and mask
canvas are all present.  Inside the try block, a null getMaskDataUrl
result throws before the API call; an API (or resize) rejection is
caught; both failure paths alert and set the state to IDLE.  On success
the resized result becomes processedImage and the state COMPARING.
maskResult models the getMaskDataUrl return value and apiResult the
awaited placeObjectInImage / resizeImage pipeline. -/
def handlePlaceObject (s : AppModel) (maskResult : Option DataUrl)
    (apiResult : Except Unit DataUrl) : HandlerResult :=
  if s.baseImage.isNone || s.objectSource.isNone || s.maskCanvas.isNone then
    ⟨s, false, true⟩
  else
    match maskResult with
    | none => ⟨{ s with appState := AppState.IDLE }, false, true⟩
    | some _ =>
      match apiResult with
      | Except.ok img =>
          ⟨{ s with processedImage := some img, appState := AppState.COMPARING }, true, false⟩
      | Except.error _ =>
          ⟨{ s with appState := AppState.IDLE }, true, true⟩

/-- handleErase from the App component: identical pipeline to
handlePlaceObject except that the guard requires only the base image and
the mask canvas, not an object source. -/
def handleErase (s : AppModel) (maskResult : Option DataUrl)
    (apiResult : Except Unit DataUrl) : HandlerResult :=
  if s.baseImage.isNone || s.maskCanvas.isNone then
    ⟨s, false, true⟩
  else
    match maskResult with
    | none => ⟨{ s with appState := AppState.IDLE }, false, true⟩
    | some _ =>
      match apiResult with
      | Except.ok img =>
          ⟨{ s with processedImage := some img, appState := AppState.COMPARING }, true, false⟩
      | Except.error _ =>
          ⟨{ s with appState := AppState.IDLE }, true, true⟩

/-- C7: the reference object is optional exactly for erasure.
handlePlaceObject reaches the API only when base image, object source
and mask canvas are all present, and otherwise alerts and leaves all
state unchanged; handleErase reaches the API whenever just the base
image and mask canvas are present (and the mask renders), with no
object source required, and otherwise alerts and leaves all state
unchanged. -/
theorem handlers_object_optional (s : AppModel) (m : Option DataUrl)
    (a : Except Unit DataUrl) :
    ((handlePlaceObject s m a).calledApi = true →
      s.baseImage.isSome = true ∧ s.objectSource.isSome = true ∧
        s.maskCanvas.isSome = true) ∧
    (¬(s.baseImage.isSome = true ∧ s.objectSource.isSome = true ∧
        s.maskCanvas.isSome = true) →
      (handlePlaceObject s m a).alerted = true ∧ (handlePlaceObject s m a).state = s) ∧
    (s.baseImage.isSome = true → s.maskCanvas.isSome = true → m.isSome = true →
      (handleErase s m a).calledApi = true) ∧
    (¬(s.baseImage.isSome = true ∧ s.maskCanvas.isSome = true) →
      (handleErase s m a).alerted = true ∧ (handleErase s m a).state = s) := by
  rcases hb : s.baseImage with _ | b <;>
    rcases ho : s.objectSource with _ | o <;>
    rcases hmc : s.maskCanvas with _ | mc <;>
    rcases m with _ | mu <;>
    rcases a with e | img <;>
    simp [handlePlaceObject, handleErase, hb, ho, hmc]

/-- Witness for C7: a state with a base image and mask canvas but no
object source, with a renderable mask and a successful API stub. -/
theorem handlers_object_optional_witness :
    ((handlePlaceObject ⟨AppState.IDLE, some 1, none, none, some []⟩ (some 7)
        (Except.ok 9)).calledApi = true →
      (Option.some (1 : DataUrl)).isSome = true ∧
        (Option.none : Option DataUrl).isSome = true ∧
        (Option.some ([] : Mask)).isSome = true) ∧
    (¬((Option.some (1 : DataUrl)).isSome = true ∧
        (Option.none : Option DataUrl).isSome = true ∧
        (Option.some ([] : Mask)).isSome = true) →
      (handlePlaceObject ⟨AppState.IDLE, some 1, none, none, some []⟩ (some 7)
          (Except.ok 9)).alerted = true ∧
      (handlePlaceObject ⟨AppState.IDLE, some 1, none, none, some []⟩ (some 7)
          (Except.ok 9)).state = ⟨AppState.IDLE, some 1, none, none, some []⟩) ∧
    ((Option.some (1 : DataUrl)).isSome = true → (Option.some ([] : Mask)).isSome = true →
      (Option.some (7 : DataUrl)).isSome = true →
      (handleErase ⟨AppState.IDLE, some 1, none, none, some []⟩ (some 7)
          (Except.ok 9)).calledApi = true) ∧
    (¬((Option.some (1 : DataUrl)).isSome = true ∧ (Option.some ([] : Mask)).isSome = true) →
      (handleErase ⟨AppState.IDLE, some 1, none, none, some []⟩ (some 7)
          (Except.ok 9)).alerted = true ∧
      (handleErase ⟨AppState.IDLE, some 1, none, none, some []⟩ (some 7)
          (Except.ok 9)).state = ⟨AppState.IDLE, some 1, none, none, some []⟩) :=
  handlers_object_optional ⟨AppState.IDLE, some 1, none, none, some []⟩ (some 7) (Except.ok 9)

/-- C8: submission is atomic on failure.  For a request that passes its
guard, if mask generation or the API call fails the handler ends in
IDLE with baseImage and processedImage exactly as before the request;
processedImage is set and the state becomes COMPARING exactly when the
pipeline succeeds. -/
theorem handlers_atomic_on_failure (s : AppModel) (m : Option DataUrl)
    (a : Except Unit DataUrl) :
    ((m = none ∨ ∃ e, a = Except.error e) →
      (handlePlaceObject s m a).state.baseImage = s.baseImage ∧
      (handlePlaceObject s m a).state.processedImage = s.processedImage ∧
      (handleErase s m a).state.baseImage = s.baseImage ∧
      (handleErase s m a).state.processedImage = s.processedImage ∧
      (s.baseImage.isSome = true → s.objectSource.isSome = true →
        s.maskCanvas.isSome = true →
        (handlePlaceObject s m a).state.appState = AppState.IDLE) ∧
      (s.baseImage.isSome = true → s.maskCanvas.isSome = true →
        (handleErase s m a).state.appState = AppState.IDLE)) ∧
    (∀ u img, m = some u → a = Except.ok img →
      (s.baseImage.isSome = true → s.objectSource.isSome = true →
        s.maskCanvas.isSome = true →
        (handlePlaceObject s m a).state.processedImage = some img ∧
        (handlePlaceObject s m a).state.appState = AppState.COMPARING ∧
        (handlePlaceObject s m a).state.baseImage = s.baseImage) ∧
      (s.baseImage.isSome = true → s.maskCanvas.isSome = true →
        (handleErase s m a).state.processedImage = some img ∧
        (handleErase s m a).state.appState = AppState.COMPARING ∧
        (handleErase s m a).state.baseImage = s.baseImage)) ∧
    ((handlePlaceObject s m a).state.appState = AppState.COMPARING ∧
        (handlePlaceObject s m a).state ≠ s →
      ∃ u img, m = some u ∧ a = Except.ok img) ∧
    ((handleErase s m a).state.appState = AppState.COMPARING ∧
        (handleErase s m a).state ≠ s →
      ∃ u img, m = some u ∧ a = Except.ok img) := by
  rcases hb : s.baseImage with _ | b <;>
    rcases ho : s.objectSource with _ | o <;>
    rcases hmc : s.maskCanvas with _ | mc <;>
    rcases m with _ | mu <;>
    rcases a with e | img <;>
    simp [handlePlaceObject, handleErase, hb, ho, hmc]

/-- Witness for C8: a fully populated state whose API call rejects; the
failure branch applies and leaves baseImage and processedImage
unchanged with the app back in IDLE. -/
theorem handlers_atomic_on_failure_witness :
    (handlePlaceObject ⟨AppState.IDLE, some 1, some 2, some 3, some []⟩ (some 7)
        (Except.error ())).state.baseImage = some 1 ∧
    (handlePlaceObject ⟨AppState.IDLE, some 1, some 2, some 3, some []⟩ (some 7)
        (Except.error ())).state.processedImage = some 2 ∧
    (handleErase ⟨AppState.IDLE, some 1, some 2, some 3, some []⟩ (some 7)
        (Except.error ())).state.baseImage = some 1 ∧
    (handleErase ⟨AppState.IDLE, some 1, some 2, some 3, some []⟩ (some 7)
        (Except.error ())).state.processedImage = some 2 ∧
    ((Option.some (1 : DataUrl)).isSome = true → (Option.some (3 : DataUrl)).isSome = true →
      (Option.some ([] : Mask)).isSome = true →
      (handlePlaceObject ⟨AppState.IDLE, some 1, some 2, some 3, some []⟩ (some 7)
        (Except.error ())).state.appState = AppState.IDLE) ∧
    ((Option.some (1 : DataUrl)).isSome = true → (Option.some ([] : Mask)).isSome = true →
      (handleErase ⟨AppState.IDLE, some 1, some 2, some 3, some []⟩ (some 7)
        (Except.error ())).state.appState = AppState.IDLE) :=
  (handlers_atomic_on_failure ⟨AppState.IDLE, some 1, some 2, some 3, some []⟩ (some 7)
    (Except.error ())).1 (Or.inr ⟨(), rfl⟩)

/-- handleMouseMove of the ComparisonSlider: while dragging, the cursor
offset inside the container is clamped to [0, width] and converted to a
percentage; otherwise the slider position is left alone. -/
def sliderMove (isDragging : Bool) (pos : ℚ) (clientX rectLeft rectWidth : ℚ) : ℚ :=
  if isDragging then
    (max 0 (min (clientX - rectLeft) rectWidth) / rectWidth) * 100
  else pos

/-- C9: the comparison slider stays within [0, 100] percent.  While
dragging, the new position is the clamped horizontal offset converted to
a percentage and lies between 0 and 100 inclusive; while not dragging
the position is unchanged. -/
theorem sliderMove_bounded (isDragging : Bool) (pos clientX rectLeft rectWidth : ℚ)
    (hw : 0 < rectWidth) :
    (isDragging = true →
      sliderMove isDragging pos clientX rectLeft rectWidth =
        (max 0 (min (clientX - rectLeft) rectWidth) / rectWidth) * 100 ∧
      0 ≤ sliderMove isDragging pos clientX rectLeft rectWidth ∧
      sliderMove isDragging pos clientX rectLeft rectWidth ≤ 100) ∧
    (isDragging = false →
      sliderMove isDragging pos clientX rectLeft rectWidth = pos) := by
  constructor
  · intro hd
    subst hd
    unfold sliderMove
    rw [if_pos rfl]
    refine ⟨rfl, ?_, ?_⟩
    · have hx : (0 : ℚ) ≤ max 0 (min (clientX - rectLeft) rectWidth) := le_max_left 0 _
      positivity
    · have hx : max 0 (min (clientX - rectLeft) rectWidth) ≤ rectWidth :=
        max_le hw.le (min_le_right _ _)
      have hdiv : max 0 (min (clientX - rectLeft) rectWidth) / rectWidth ≤ 1 :=
        (div_le_one hw).mpr hx
      nlinarith
  · intro hd
    subst hd
    unfold sliderMove
    rfl

/-- Witness for C9: a drag event 30 units into a 200-unit-wide
container, and a non-drag event leaving position 50 alone. -/
theorem sliderMove_bounded_witness :
    ((true = true →
      sliderMove true 50 130 100 200 = (max 0 (min (130 - 100 : ℚ) 200) / 200) * 100 ∧
      0 ≤ sliderMove true 50 130 100 200 ∧
      sliderMove true 50 130 100 200 ≤ 100) ∧
     (true = false → sliderMove true 50 130 100 200 = 50)) ∧
    sliderMove false 50 130 100 200 = 50 :=
  ⟨sliderMove_bounded true 50 130 100 200 (by norm_num),
   (sliderMove_bounded false 50 130 100 200 (by norm_num)).2 rfl⟩

/-- fitImageToScreen from the App component: picks the scale that fits
the image inside the container minus a 40-pixel padding and centers the
scaled image. -/
def fitImageToScreen (cw ch w h : ℚ) : Transform :=
  let padding : ℚ := 40
  let scale := min ((cw - padding) / w) ((ch - padding) / h)
  ⟨(cw - w * scale) / 2, (ch - h * scale) / 2, scale⟩

/-- C10: fitImageToScreen fits and centers.  The scale and translation
are exactly min((cw-40)/w, (ch-40)/h) and ((cw-w k)/2, (ch-h k)/2), the
margins on opposite sides are equal (centering), and when the container
exceeds the 40-pixel padding the scaled image lies inside it with at
least 20 pixels of margin on every side. -/
theorem fitImageToScreen_fits (cw ch w h : ℚ) (hw : 0 < w) (hh : 0 < h) :
    (fitImageToScreen cw ch w h).k = min ((cw - 40) / w) ((ch - 40) / h) ∧
    (fitImageToScreen cw ch w h).x = (cw - w * (fitImageToScreen cw ch w h).k) / 2 ∧
    (fitImageToScreen cw ch w h).y = (ch - h * (fitImageToScreen cw ch w h).k) / 2 ∧
    (fitImageToScreen cw ch w h).x =
      cw - ((fitImageToScreen cw ch w h).x + w * (fitImageToScreen cw ch w h).k) ∧
    (fitImageToScreen cw ch w h).y =
      ch - ((fitImageToScreen cw ch w h).y + h * (fitImageToScreen cw ch w h).k) ∧
    (40 < cw → 40 < ch →
      20 ≤ (fitImageToScreen cw ch w h).x ∧
      (fitImageToScreen cw ch w h).x + w * (fitImageToScreen cw ch w h).k ≤ cw - 20 ∧
      20 ≤ (fitImageToScreen cw ch w h).y ∧
      (fitImageToScreen cw ch w h).y + h * (fitImageToScreen cw ch w h).k ≤ ch - 20) := by
  unfold fitImageToScreen
  refine ⟨rfl, rfl, rfl, by ring, by ring, ?_⟩
  intro hcw hch
  set k := min ((cw - 40) / w) ((ch - 40) / h) with hkdef
  have hkw : k ≤ (cw - 40) / w := min_le_left _ _
  have hkh : k ≤ (ch - 40) / h := min_le_right _ _
  have hwk : w * k ≤ cw - 40 := by
    calc w * k ≤ w * ((cw - 40) / w) := by nlinarith
    _ = cw - 40 := by field_simp
  have hhk : h * k ≤ ch - 40 := by
    calc h * k ≤ h * ((ch - 40) / h) := by nlinarith
    _ = ch - 40 := by field_simp
  refine ⟨by linarith, by linarith, by linarith, by linarith⟩

/-- Witness for C10: a 150 x 100 image in a 640 x 480 container gets
scale 4 and translation (20, 40), centered with 20-pixel margins. -/
theorem fitImageToScreen_fits_witness :
    (fitImageToScreen 640 480 150 100).k = min ((640 - 40 : ℚ) / 150) ((480 - 40 : ℚ) / 100) ∧
    (fitImageToScreen 640 480 150 100).x =
      (640 - 150 * (fitImageToScreen 640 480 150 100).k) / 2 ∧
    (fitImageToScreen 640 480 150 100).y =
      (480 - 100 * (fitImageToScreen 640 480 150 100).k) / 2 ∧
    (fitImageToScreen 640 480 150 100).x =
      640 - ((fitImageToScreen 640 480 150 100).x +
        150 * (fitImageToScreen 640 480 150 100).k) ∧
    (fitImageToScreen 640 480 150 100).y =
      480 - ((fitImageToScreen 640 480 150 100).y +
        100 * (fitImageToScreen 640 480 150 100).k) ∧
    ((40 : ℚ) < 640 → (40 : ℚ) < 480 →
      20 ≤ (fitImageToScreen 640 480 150 100).x ∧
      (fitImageToScreen 640 480 150 100).x +
        150 * (fitImageToScreen 640 480 150 100).k ≤ 640 - 20 ∧
      20 ≤ (fitImageToScreen 640 480 150 100).y ∧
      (fitImageToScreen 640 480 150 100).y +
        100 * (fitImageToScreen 640 480 150 100).k ≤ 480 - 20) :=
  fitImageToScreen_fits 640 480 150 100 (by norm_num) (by norm_num)

end PhotoPlacer
